import Mathlib

/-!
Verification of the ZeroSh shell (zerosh) against its specification.

The embedding follows the three source files:

* `src/util.rs`   — `run_syscall`, the EINTR-retrying syscall wrapper;
* `src/lib.rs`    — message types `WorkerMsg`/`ShellMsg`, the orchestrator
  state (`State`, `prompt`), the main read loop (`run_shell`, `process`),
  and the signal-relay thread (`spawn_signal_handler`);
* `src/worker.rs` — the `Worker` state (`exit_code`, `fg`); the body of the
  worker message loop is `todo!()` in the source, so its command/signal
  handling is modelled from the specification (marked below).

Machine integers (`i32`) are modelled as `Int`; none of the verified claims
exercise overflow.  Side effects (channel sends, prints, signal calls) are
reified as an explicit `Effect` list returned by each embedded function.
-/

/-- Rust `i32`, modelled as `Int` (no claim exercises wrap-around). -/
abbrev I32 := Int

/-- Linux signal number of SIGINT (value of `signal_hook::consts::SIGINT`). -/
def SIGINT : I32 := 2

/-- Linux signal number of SIGCHLD. -/
def SIGCHLD : I32 := 17

/-- Linux signal number of SIGTSTP. -/
def SIGTSTP : I32 := 20

/-- Linux signal number of SIGTTOU. -/
def SIGTTOU : I32 := 22

/-- Linux signal number of SIGCONT. -/
def SIGCONT : I32 := 18

/-- `enum WorkerMsg` of `src/lib.rs`: messages to the `worker` thread. -/
inductive WorkerMsg
  /-- A signal forwarded by the `signal_handler` thread. -/
  | Signal (signal : I32)
  /-- A user input line forwarded by the `main` thread. -/
  | Cmd (cmd : String)
deriving DecidableEq, Repr

/-- `enum ShellMsg` of `src/lib.rs`: replies to the `main` thread. -/
inductive ShellMsg
  /-- Continue reading user input. -/
  | Continue (code : I32)
  /-- Quit the shell. -/
  | Quit (code : I32)
deriving DecidableEq, Repr

/-- The signal dispositions used by the shell (`nix::sys::signal::SigHandler`). -/
inductive SigHandlerKind
  | SigIgn
  | SigDfl
deriving DecidableEq, Repr

/-- Reified side effects of the shell, in program order. -/
inductive Effect
  /-- `signal::signal(sig, handler)`: change a signal disposition. -/
  | sigaction (signal : I32) (handler : SigHandlerKind)
  /-- Send a message on `worker_tx`. -/
  | sendWorker (msg : WorkerMsg)
  /-- Send a reply on `shell_tx`. -/
  | sendShell (msg : ShellMsg)
  /-- `eprintln!`-style diagnostic output. -/
  | eprint (s : String)
  /-- `editor.add_history_entry(line)`. -/
  | addHistory (line : String)
  /-- Deliver a signal to a process group (`killpg`). -/
  | killPg (pgid : I32) (signal : I32)
  /-- Transfer terminal control to a process group (`tcsetpgrp`). -/
  | tcsetpgrp (pgid : I32)
  /-- Change the working directory (`cd` builtin). -/
  | chdir (dir : String)
  /-- Spawn the `signal_handler` thread. -/
  | spawnSignalHandlerThread
  /-- Spawn the `worker` thread. -/
  | spawnWorkerThread
deriving DecidableEq, Repr

/-- Whether an effect is a signal-disposition change (`signal::signal`). -/
def isSigactionEffect : Effect → Bool
  | .sigaction _ _ => true
  | _ => false

/-! ## `src/util.rs` — `run_syscall` -/

/-- `nix::Error`: `EINTR` or any other errno. -/
inductive NixError
  | EINTR
  | other (errno : Nat)
deriving DecidableEq, Repr

/-- `run_syscall` of `src/util.rs`.  The repeated calls of the closure `f`
are modelled as a sequence `f : Nat → Except NixError T` (`f i` is the
result of the `i`-th call); the loop is given explicit fuel, returning
`none` when the fuel is exhausted before a non-`EINTR` result appears.
`run_syscall f i fuel` runs the loop starting from the `i`-th call. -/
def run_syscall {T : Type} (f : Nat → Except NixError T) :
    Nat → Nat → Option (Except NixError T)
  | _, 0 => none
  | i, fuel + 1 =>
    match f i with
    | .error .EINTR => run_syscall f (i + 1) fuel
    | res => some res

/-! ## `src/lib.rs` — signal relay thread -/

/-- The signal set passed to `signal_hook::iterator::Signals::new` in
`spawn_signal_handler` (`src/lib.rs`). -/
def subscribedSignals : List I32 := [SIGINT, SIGTSTP, SIGCHLD]

/-- The body of the `signal_handler` thread (`src/lib.rs`): for every signal
received from `signals.forever()`, send `WorkerMsg::Signal { signal }`.
The stream of delivered signals is modelled as a list. -/
def signalHandlerRelay (signals : List I32) : List WorkerMsg :=
  signals.map (fun signal => WorkerMsg.Signal signal)

/-! ## `src/lib.rs` — orchestrator state and read loop -/

/-- `struct State` of `src/lib.rs` (the `editor` and `worker_tx` handles are
capabilities, not data; sends and history writes appear as `Effect`s). -/
structure State where
  exit_code : I32
  last_exit_code : I32
deriving DecidableEq, Repr

/-- The smiling-face glyph `U+1F642` shown on success. -/
def successFace : Char := Char.ofNat 0x1F642

/-- The skull glyph `U+1F480` shown on failure. -/
def failureFace : Char := Char.ofNat 0x1F480

/-- `State::prompt` of `src/lib.rs`. -/
def State.prompt (s : State) : String :=
  let face := if s.last_exit_code = 0 then successFace else failureFace
  "ZeroSh " ++ face.toString ++ " %>"

/-- The prompt shown after a success (`last_exit_code == 0`). -/
def successPrompt : String := "ZeroSh " ++ successFace.toString ++ " %>"

/-- The prompt shown after a failure (`last_exit_code != 0`). -/
def failurePrompt : String := "ZeroSh " ++ failureFace.toString ++ " %>"

/-- Result of `editor.readline` (`rustyline`), as matched in `process`. -/
inductive ReadlineResult
  | ok (line : String)
  /-- `ReadlineError::Interrupted` (Ctrl-C at the prompt). -/
  | interrupted
  /-- `ReadlineError::Eof` (Ctrl-D / end of input). -/
  | eof
  /-- any other read error. -/
  | err (msg : String)
deriving DecidableEq, Repr

/-- How one iteration of the main loop ends, mirroring
`ControlFlow<()>` plus the `panic!("failed to exit")` arm of `process`. -/
inductive ProcessOutcome
  | continueLoop
  | breakLoop
  | panicked
deriving DecidableEq, Repr

/-- Whitespace test of Rust `char::is_whitespace`, restricted to the
characters the claims exercise (ASCII whitespace). -/
def isWs (c : Char) : Bool := c.isWhitespace

/-- Rust `str::trim` on the underlying character list: drop whitespace from
both ends. -/
def trimChars (l : List Char) : List Char :=
  ((l.dropWhile isWs).reverse.dropWhile isWs).reverse

/-- Rust `str::trim`, the trimming applied by `process` (`src/lib.rs`). -/
def rustTrim (s : String) : String :=
  String.mk (trimChars s.data)

/-- `process` of `src/lib.rs`.  One iteration of the main loop: read a line
(`input` is the readline result), dispatch on it, and — when a command was
sent to the worker — receive the worker's reply, modelled by the `reply`
argument (used only on paths that reach `shell_rx.recv()`).  Returns the
updated state, the effects in program order, and how the iteration ends. -/
def process (st : State) (input : ReadlineResult) (reply : ShellMsg) :
    State × List Effect × ProcessOutcome :=
  match input with
  | .interrupted =>
    (st, [.eprint "ZeroSh: you can exit with `Ctrl+d`"], .continueLoop)
  | .eof =>
    let effs := [Effect.sendWorker (.Cmd "exit")]
    match reply with
    | .Quit code => ({ st with exit_code := code }, effs, .breakLoop)
    | .Continue _ => (st, effs, .panicked)
  | .err msg =>
    ({ st with exit_code := 1 },
      [.eprint ("ZeroSh: read error\n" ++ msg)], .breakLoop)
  | .ok line =>
    let line := rustTrim line
    if line = "" then
      (st, [], .continueLoop)
    else
      let effs := [Effect.addHistory line, Effect.sendWorker (.Cmd line)]
      match reply with
      | .Continue code =>
        ({ st with last_exit_code := code }, effs, .continueLoop)
      | .Quit code =>
        ({ st with exit_code := code }, effs, .breakLoop)

/-- `run_shell` of `src/lib.rs`, startup prefix: the statements executed
before the main loop, in program order — ignore SIGTTOU, then spawn the
`signal_handler` and `worker` threads. -/
def runShellStartupEffects : List Effect :=
  [.sigaction SIGTTOU .SigIgn, .spawnSignalHandlerThread, .spawnWorkerThread]

/-- The main loop of `run_shell` (`src/lib.rs`): iterate `process` until it
breaks (or panics).  Each loop iteration is fed one readline result and the
worker reply it would receive. -/
def shellLoop (st : State) : List (ReadlineResult × ShellMsg) → State × List Effect
  | [] => (st, [])
  | (input, reply) :: rest =>
    match process st input reply with
    | (st2, effs, .continueLoop) =>
      let (st3, effs2) := shellLoop st2 rest
      (st3, effs ++ effs2)
    | (st2, effs, _) => (st2, effs)

/-- `run_shell` of `src/lib.rs`: the SIGTTOU-ignore and thread spawns,
followed by the main loop from the initial state (`State::create` sets both
exit codes to 0). -/
def run_shell (inputs : List (ReadlineResult × ShellMsg)) : State × List Effect :=
  let st0 : State := { exit_code := 0, last_exit_code := 0 }
  let (st, effs) := shellLoop st0 inputs
  (st, runShellStartupEffects ++ effs)

/-! ## `src/worker.rs` — the Worker

`struct Worker` and `Worker::new` are in the source; the body of the
message loop in `spawn_worker` is `todo!()`, so everything the loop does is
modelled from the specification (doc comments below say which part of the
spec each definition comes from). -/

/-- Job aggregate state (spec data model §3). -/
inductive JobState
  | Running
  | Stopped
  | Done (exit_status : I32)
deriving DecidableEq, Repr

/-- Modelled from the spec: a Job of the job table (§3) — the source only
hints at the table through commented-out fields of `Worker`. -/
structure Job where
  job_id : Nat
  pgid : I32
  command_line : String
  state : JobState
  is_background : Bool
deriving DecidableEq, Repr

/-- `struct Worker` of `src/worker.rs` (`exit_code`, `fg`), extended with
the job table (`jobs`, commented out in the source, modelled from spec §3)
and the consecutive-`exit` flag (`exit_refused`, modelled from spec §4.3:
`exit` force-quits when "invoked a second consecutive time"). -/
structure Worker where
  exit_code : I32
  fg : Option I32
  jobs : List Job
  exit_refused : Bool
deriving DecidableEq, Repr

/-- `Worker::new` of `src/worker.rs`: the shell itself is the foreground
process (`fg = None`), exit code 0; empty job table, no refused `exit`. -/
def Worker.new : Worker :=
  { exit_code := 0, fg := none, jobs := [], exit_refused := false }

/-- Modelled from the spec (§4.3 `exit`): a job still Running or Stopped. -/
def Worker.hasOutstanding (w : Worker) : Bool :=
  w.jobs.any fun j =>
    match j.state with
    | .Running => true
    | .Stopped => true
    | .Done _ => false

/-- Modelled from the spec (§4.1): split a stage on whitespace into argv
(on the underlying character list). -/
def tokenize (l : List Char) : List String :=
  ((List.splitOnP isWs l).filter (fun t => t ≠ [])).map String.mk

/-- Modelled from the spec: digit-sequence parsing, the structural version
of the Rust `str::parse` used for `exit [code]` and `%N`. -/
def parseNatAux : List Char → Nat → Option Nat
  | [], acc => some acc
  | c :: cs, acc =>
    if c.isDigit then parseNatAux cs (acc * 10 + (c.toNat - 48)) else none

/-- Parse a non-empty decimal digit string. -/
def parseNat (s : String) : Option Nat :=
  match s.data with
  | [] => none
  | cs => parseNatAux cs 0

/-- Parse an optionally negated decimal integer (the Rust `str::parse`
for `i32`). -/
def parseInt (s : String) : Option Int :=
  match s.data with
  | '-' :: cs => (parseNat (String.mk cs)).map (fun n => -(n : Int))
  | _ => (parseNat s).map (fun n => (n : Int))

/-- Modelled from the spec (§4.1): a parsed pipeline — stages (argv each)
plus the background flag. -/
structure Pipeline where
  stages : List (List String)
  is_background : Bool
deriving DecidableEq, Repr

/-- Modelled from the spec (§4.1): split on `|` into stages, split each
stage on whitespace into argv, recognize a single trailing `&` token as the
background marker; `none` (ParseError) on an empty stage between two pipes
or a missing program name. -/
def parsePipeline (line : String) : Option Pipeline :=
  let stages := (line.data.splitOn '|').map tokenize
  match stages.getLast? with
  | none => none
  | some lastStage =>
    let (stages, bg) :=
      match lastStage.getLast? with
      | some t =>
        if t = "&" then (stages.dropLast ++ [lastStage.dropLast], true)
        else (stages, false)
      | none => (stages, false)
    if stages.any (fun argv => argv.isEmpty) then none
    else some { stages := stages, is_background := bg }

/-- The builtin names (spec §4.1/§4.3). -/
def builtinNames : List String := ["cd", "exit", "jobs", "fg", "bg"]

/-- Modelled from the spec (§4.1): a builtin is recognized only as the
entire first token of a single-stage pipeline. -/
def isBuiltinPipeline (p : Pipeline) : Bool :=
  match p.stages with
  | [argv] =>
    match argv.head? with
    | some name => builtinNames.contains name
    | none => false
  | _ => false

/-- Modelled from the spec (§4.3 `fg`/`bg`): job references use `%N`. -/
def parseJobRef (s : String) : Option Nat :=
  match s.data with
  | '%' :: cs => parseNat (String.mk cs)
  | _ => none

/-- Modelled from the spec (§3): lowest-unused job id, starting at 1
(id 0 is never assigned). -/
def allocJobId (jobs : List Job) : Nat :=
  (((List.range (jobs.length + 1)).map (· + 1)).find?
    (fun n => ¬ jobs.any (fun j => j.job_id = n))).getD 1

/-- Modelled from the spec (§4.3 `fg`): how a foreground wait ends — the
job becomes Done with an exit code, or is Stopped by a signal. -/
inductive FgOutcome
  | done (code : I32)
  | stopped
deriving DecidableEq, Repr

/-- Modelled from the spec (§4.4 SIGCHLD): one pending child-state change,
presented per owning job as its new aggregate state. -/
structure ReapEvent where
  job_id : Nat
  new_state : JobState
deriving DecidableEq, Repr

/-- Modelled from the spec: the OS-dependent outcomes the worker observes —
spawn results (§4.2: `none` is a spawn failure, `some pgid` the new process
group), foreground waits (§4.3), `cd` success (§4.3), and the pending
SIGCHLD state changes (§4.4). -/
structure WorkerOracle where
  spawn : String → Option I32
  runFg : Nat → FgOutcome
  cdOk : String → Bool
  reap : List ReapEvent

/-- POSIX convention (spec §6): exit code reported for a job stopped by
SIGTSTP is 128 + signal. -/
def stoppedExitCode : I32 := 128 + SIGTSTP

/-- The shell's own process group, for terminal reclamation (§4.2/§4.4). -/
def shellPgid : I32 := 0

/-- Modelled from the spec (§4.3 `exit`): with an outstanding (Running or
Stopped) job, refuse with a warning and reply Continue — unless this is the
second consecutive `exit`, which force-quits; otherwise reply Quit with the
given code (default 0). -/
def builtinExit (w : Worker) (argv : List String) :
    Worker × List ShellMsg × List Effect :=
  let code := ((argv.get? 1).bind parseInt).getD 0
  if w.hasOutstanding && !w.exit_refused then
    ({ w with exit_refused := true },
      [.Continue 1],
      [.eprint "zerosh: there are outstanding jobs; exit again to force quit"])
  else
    (w, [.Quit code], [])

/-- Modelled from the spec (§4.3 `cd`): change directory, home fallback
when no argument; failure is non-fatal with a non-zero code. -/
def builtinCd (o : WorkerOracle) (w : Worker) (argv : List String) :
    Worker × List ShellMsg × List Effect :=
  let dir := (argv.get? 1).getD "~"
  if o.cdOk dir then
    ({ w with exit_code := 0, exit_refused := false },
      [.Continue 0], [.chdir dir])
  else
    ({ w with exit_code := 1, exit_refused := false },
      [.Continue 1], [.eprint ("zerosh: cd: no such directory: " ++ dir)])

/-- Modelled from the spec (§4.3 `jobs`): list the tracked jobs; always
succeeds, always replies Continue. -/
def builtinJobs (w : Worker) : Worker × List ShellMsg × List Effect :=
  ({ w with exit_refused := false },
    [.Continue 0],
    [.eprint (String.intercalate "\n" (w.jobs.map (fun j => j.command_line)))])

/-- Modelled from the spec (§4.3 `fg`): send SIGCONT to the job's process
group if Stopped, transfer terminal control to it, block until the job is
Stopped or Done, reclaim the terminal, and reply Continue. -/
def builtinFg (o : WorkerOracle) (w : Worker) (argv : List String) :
    Worker × List ShellMsg × List Effect :=
  match (argv.get? 1).bind parseJobRef with
  | none =>
    ({ w with exit_code := 1, exit_refused := false },
      [.Continue 1], [.eprint "zerosh: fg: job not found"])
  | some n =>
    match w.jobs.find? (fun j => j.job_id == n) with
    | none =>
      ({ w with exit_code := 1, exit_refused := false },
        [.Continue 1], [.eprint "zerosh: fg: job not found"])
    | some j =>
      let contEffs :=
        if j.state = .Stopped then [Effect.killPg j.pgid SIGCONT] else []
      let effs := contEffs ++ [Effect.tcsetpgrp j.pgid]
      match o.runFg n with
      | .done code =>
        ({ w with
            jobs := w.jobs.eraseP (fun j2 => j2.job_id == n),
            exit_code := code, fg := none, exit_refused := false },
          [.Continue code], effs ++ [.tcsetpgrp shellPgid])
      | .stopped =>
        ({ w with
            jobs := w.jobs.map (fun j2 =>
              if j2.job_id == n then { j2 with state := .Stopped } else j2),
            exit_code := stoppedExitCode, fg := none, exit_refused := false },
          [.Continue stoppedExitCode], effs ++ [.tcsetpgrp shellPgid])

/-- Modelled from the spec (§4.3 `bg`): send SIGCONT to the job's process
group without taking terminal control, return immediately. -/
def builtinBg (w : Worker) (argv : List String) :
    Worker × List ShellMsg × List Effect :=
  match (argv.get? 1).bind parseJobRef with
  | none =>
    ({ w with exit_code := 1, exit_refused := false },
      [.Continue 1], [.eprint "zerosh: bg: job not found"])
  | some n =>
    match w.jobs.find? (fun j => j.job_id == n) with
    | none =>
      ({ w with exit_code := 1, exit_refused := false },
        [.Continue 1], [.eprint "zerosh: bg: job not found"])
    | some j =>
      ({ w with
          jobs := w.jobs.map (fun j2 =>
            if j2.job_id == n then
              { j2 with state := .Running, is_background := true }
            else j2),
          exit_code := 0, exit_refused := false },
        [.Continue 0], [.killPg j.pgid SIGCONT])

/-- Modelled from the spec (§4.2): spawn a parsed external pipeline.  Spawn
failure cleans up and replies Continue with a non-zero code; a background
job is recorded Running and replied to immediately with Continue 0; a
foreground job gets the terminal, is waited for until Stopped or Done, and
its status becomes the reply code. -/
def runExternal (o : WorkerOracle) (w : Worker) (line : String)
    (p : Pipeline) : Worker × List ShellMsg × List Effect :=
  match o.spawn line with
  | none =>
    ({ w with exit_code := 127, exit_refused := false },
      [.Continue 127], [.eprint ("zerosh: failed to spawn: " ++ line)])
  | some pgid =>
    let jid := allocJobId w.jobs
    if p.is_background then
      let job : Job :=
        { job_id := jid, pgid := pgid, command_line := line,
          state := .Running, is_background := true }
      ({ w with
          jobs := w.jobs ++ [job], exit_code := 0, exit_refused := false },
        [.Continue 0], [])
    else
      match o.runFg jid with
      | .done code =>
        ({ w with exit_code := code, fg := none, exit_refused := false },
          [.Continue code],
          [.tcsetpgrp pgid, .tcsetpgrp shellPgid])
      | .stopped =>
        let job : Job :=
          { job_id := jid, pgid := pgid, command_line := line,
            state := .Stopped, is_background := false }
        ({ w with
            jobs := w.jobs ++ [job], exit_code := stoppedExitCode,
            fg := none, exit_refused := false },
          [.Continue stoppedExitCode],
          [.tcsetpgrp pgid, .tcsetpgrp shellPgid])

/-- Modelled from the spec (§4.3): dispatch a recognized builtin on its
first token. -/
def runBuiltin (o : WorkerOracle) (w : Worker) (argv : List String) :
    Worker × List ShellMsg × List Effect :=
  let name := (argv.head?).getD ""
  if name = "exit" then builtinExit w argv
  else if name = "cd" then builtinCd o w argv
  else if name = "jobs" then builtinJobs w
  else if name = "fg" then builtinFg o w argv
  else if name = "bg" then builtinBg w argv
  else
    ({ w with exit_refused := false },
      [.Continue w.exit_code], [.eprint "zerosh: parse error"])

/-- Modelled from the spec (§4.1–§4.3, §6): handle one Command message —
parse the line, run a builtin or spawn an external pipeline, and reply.
On ParseError no process is spawned and the reply is Continue with the
previous exit code unchanged. -/
def handleCmd (o : WorkerOracle) (w : Worker) (line : String) :
    Worker × List ShellMsg × List Effect :=
  match parsePipeline line with
  | none =>
    ({ w with exit_refused := false },
      [.Continue w.exit_code], [.eprint "zerosh: parse error"])
  | some p =>
    if isBuiltinPipeline p then
      runBuiltin o w ((p.stages.head?).getD [])
    else
      runExternal o w line p

/-- Modelled from the spec (§4.4 SIGCHLD, §7 SignalDeliveryGap): apply one
pending per-job state change to the job table.  Unknown job ids are logged
and ignored; a Done background job is evicted after a completion notice; a
Done foreground job is evicted after the terminal is reclaimed. -/
def applyReap (jobs : List Job) (ev : ReapEvent) : List Job × List Effect :=
  match jobs.find? (fun j => j.job_id == ev.job_id) with
  | none => (jobs, [.eprint "zerosh: reaped unknown job"])
  | some j =>
    match ev.new_state with
    | .Done _ =>
      let jobs := jobs.eraseP (fun j2 => j2.job_id == ev.job_id)
      if j.is_background then
        (jobs, [.eprint ("zerosh: job done: " ++ j.command_line)])
      else
        (jobs, [.tcsetpgrp shellPgid])
    | ns =>
      (jobs.map (fun j2 =>
        if j2.job_id == ev.job_id then { j2 with state := ns } else j2), [])

/-- Modelled from the spec (§4.4 SIGCHLD): repeatedly apply the pending
state changes, accumulating the notices they emit. -/
def reapAll (evs : List ReapEvent) (jobs : List Job) (effs : List Effect) :
    List Job × List Effect :=
  match evs with
  | [] => (jobs, effs)
  | ev :: tl =>
    let (jobs2, effs2) := applyReap jobs ev
    reapAll tl jobs2 (effs ++ effs2)

/-- Modelled from the spec (§4.4): handle one Signal message.  SIGCHLD
reaps pending child-state changes; SIGINT/SIGTSTP are forwarded to the
foreground process group if one exists and swallowed otherwise; any other
signal number is logged and ignored.  No branch sends a reply. -/
def handleSignal (o : WorkerOracle) (w : Worker) (s : I32) :
    Worker × List ShellMsg × List Effect :=
  if s = SIGCHLD then
    let (jobs, effs) := reapAll o.reap w.jobs []
    ({ w with jobs := jobs }, [], effs)
  else if s = SIGINT ∨ s = SIGTSTP then
    match w.fg with
    | some pgid => (w, [], [.killPg pgid s])
    | none => (w, [], [])
  else
    (w, [], [.eprint "zerosh: unexpected signal"])

/-- Modelled from the spec (§2, §6): one step of the worker message loop of
`spawn_worker` (`src/worker.rs`, `todo!()` in the source): dispatch on the
message kind.  Returns the worker state, the replies sent on `shell_tx`,
and the other effects. -/
def workerStep (o : WorkerOracle) (w : Worker) (msg : WorkerMsg) :
    Worker × List ShellMsg × List Effect :=
  match msg with
  | .Cmd line => handleCmd o w line
  | .Signal s => handleSignal o w s

/-- A concrete oracle used by witnesses: every spawn succeeds with process
group 100, foreground jobs exit with code 0, `cd` always succeeds, no
pending SIGCHLD events. -/
def oracle0 : WorkerOracle :=
  { spawn := fun _ => some 100, runFg := fun _ => .done 0,
    cdOk := fun _ => true, reap := [] }

/-- A concrete Stopped foreground job, for witnesses and counterexamples. -/
def stoppedJob : Job :=
  { job_id := 1, pgid := 100, command_line := "cat",
    state := .Stopped, is_background := false }

/-- A worker tracking one Stopped job and no previously refused `exit`. -/
def workerWithStoppedJob : Worker :=
  { exit_code := 0, fg := none, jobs := [stoppedJob], exit_refused := false }

/-! ## Helper lemmas on `dropWhile` and trimming -/

theorem dropWhile_idem {α : Type} (p : α → Bool) (l : List α) :
    (l.dropWhile p).dropWhile p = l.dropWhile p := by
  induction l with
  | nil => rfl
  | cons a l ih =>
    by_cases h : p a
    · simp [List.dropWhile_cons, h, ih]
    · simp [List.dropWhile_cons, h]

theorem head?_dropWhile {α : Type} (p : α → Bool) (l : List α) (a : α)
    (h : (l.dropWhile p).head? = some a) : p a = false := by
  induction l with
  | nil => simp at h
  | cons b l ih =>
    by_cases hb : p b
    · simp [List.dropWhile_cons, hb] at h
      exact ih h
    · simp [List.dropWhile_cons, hb] at h
      subst h
      simpa using hb

theorem dropWhile_of_head_not {α : Type} (p : α → Bool) (l : List α) (a : α)
    (hh : l.head? = some a) (ha : p a = false) : l.dropWhile p = l := by
  cases l with
  | nil => rfl
  | cons b l =>
    simp at hh
    subst hh
    simp [List.dropWhile_cons, ha]

theorem getLast?_dropWhile {α : Type} (p : α → Bool) (l : List α)
    (h : l.dropWhile p ≠ []) : (l.dropWhile p).getLast? = l.getLast? := by
  induction l with
  | nil => simp at h
  | cons a l ih =>
    by_cases ha : p a
    · rw [List.dropWhile_cons_of_pos ha] at h ⊢
      have hl : l ≠ [] := by
        intro he
        exact h (by simp [he])
      rw [ih h]
      cases l with
      | nil => exact absurd rfl hl
      | cons b t => exact List.getLast?_cons_cons.symm
    · rw [List.dropWhile_cons_of_neg (by simpa using ha)]

theorem trimChars_idem (l : List Char) : trimChars (trimChars l) = trimChars l := by
  have hdi := dropWhile_idem isWs (l.dropWhile isWs).reverse
  by_cases hBe : (l.dropWhile isWs).reverse.dropWhile isWs = []
  · unfold trimChars
    rw [hBe]
    simp
  · have hAne : l.dropWhile isWs ≠ [] := by
      intro he
      apply hBe
      rw [he]
      rfl
    cases hha : (l.dropWhile isWs).head? with
    | none => exact absurd (List.head?_eq_none_iff.1 hha) hAne
    | some a =>
      have hpa : isWs a = false := head?_dropWhile isWs l a hha
      have hrev :
          ((l.dropWhile isWs).reverse.dropWhile isWs).reverse.head? = some a := by
        rw [List.head?_reverse, getLast?_dropWhile _ _ hBe,
          List.getLast?_reverse, hha]
      unfold trimChars
      rw [dropWhile_of_head_not isWs _ a hrev hpa, List.reverse_reverse, hdi]

theorem rustTrim_idem (s : String) : rustTrim (rustTrim s) = rustTrim s := by
  unfold rustTrim
  exact congrArg String.mk (trimChars_idem s.data)

/-! ## C4 — `run_syscall` -/

theorem run_syscall_not_eintr {T : Type} (f : Nat → Except NixError T) :
    ∀ (fuel i : Nat) (r : Except NixError T),
      run_syscall f i fuel = some r → r ≠ .error .EINTR := by
  intro fuel
  induction fuel with
  | zero => intro i r h; simp [run_syscall] at h
  | succ fuel ih =>
    intro i r h
    rw [run_syscall] at h
    revert h
    split
    · intro h
      exact ih (i + 1) r h
    · rename_i res hres
      intro h
      injection h with h2
      subst h2
      intro he
      exact hres he

theorem run_syscall_reaches {T : Type} (f : Nat → Except NixError T) :
    ∀ (n i fuel : Nat), (∀ m, m < n → f (i + m) = .error .EINTR) →
      f (i + n) ≠ .error .EINTR → n < fuel →
      run_syscall f i fuel = some (f (i + n)) := by
  intro n
  induction n with
  | zero =>
    intro i fuel _ hn hfu
    cases fuel with
    | zero => omega
    | succ fuel =>
      rw [run_syscall]
      split
      · rename_i hres
        exact absurd (by simpa using hres) hn
      · rfl
  | succ n ih =>
    intro i fuel hmin hn hfu
    cases fuel with
    | zero => omega
    | succ fuel =>
      rw [run_syscall]
      split
      · have : ∀ m, m < n → f (i + 1 + m) = .error .EINTR := by
          intro m hm
          have := hmin (m + 1) (by omega)
          simpa [Nat.add_assoc, Nat.add_comm 1 m] using this
        have hn' : f (i + 1 + n) ≠ .error .EINTR := by
          have : i + 1 + n = i + (n + 1) := by omega
          rw [this]
          exact hn
        have := ih (i + 1) fuel this hn' (by omega)
        rw [this]
        have : i + 1 + n = i + (n + 1) := by omega
        rw [this]
      · rename_i res hres
        have h0 := hmin 0 (by omega)
        simp at h0
        exact absurd h0 hres

/-- C4: if some finite number of successive calls to `f` yields a result
other than `Err(EINTR)` — `n` is the first such call — then `run_syscall`
terminates (with any fuel beyond `n`) and returns that first non-EINTR
result, and `run_syscall` never returns `Err(EINTR)`. -/
theorem c4_run_syscall_retries_eintr {T : Type} (f : Nat → Except NixError T)
    (n : Nat) (hn : f n ≠ .error .EINTR)
    (hmin : ∀ m, m < n → f m = .error .EINTR) :
    (∀ fuel, n < fuel → run_syscall f 0 fuel = some (f n)) ∧
    (∀ i fuel r, run_syscall f i fuel = some r → r ≠ .error .EINTR) := by
  constructor
  · intro fuel hfu
    have := run_syscall_reaches f n 0 fuel (by simpa using hmin) (by simpa using hn) hfu
    simpa using this
  · intro i fuel r h
    exact run_syscall_not_eintr f fuel i r h

/-- C4 witness: two EINTR results followed by a success; `run_syscall`
returns the success. -/
theorem c4_witness :
    run_syscall (fun k => if k < 2 then Except.error NixError.EINTR else Except.ok k) 0 3 =
      some (Except.ok 2) := by
  have h := c4_run_syscall_retries_eintr
    (fun k => if k < 2 then Except.error NixError.EINTR else Except.ok k)
    2 (by intro hc; simp at hc) (by intro m hm; interval_cases m <;> rfl)
  simpa using h.1 3 (by omega)

/-! ## C5 — the signal relay -/

/-- C5: the relay thread subscribes to exactly SIGINT, SIGTSTP and SIGCHLD,
and forwards every delivered signal, in order, as a `Signal` message with
that signal's number; under the subscription guarantee every forwarded
number is one of the three subscribed ones. -/
theorem c5_signal_relay_subscribed_only (sigs : List I32)
    (hsub : ∀ s ∈ sigs, s ∈ subscribedSignals) :
    subscribedSignals = [SIGINT, SIGTSTP, SIGCHLD] ∧
    (signalHandlerRelay sigs).length = sigs.length ∧
    (∀ s ∈ sigs, WorkerMsg.Signal s ∈ signalHandlerRelay sigs) ∧
    (∀ m ∈ signalHandlerRelay sigs,
      ∃ s, m = WorkerMsg.Signal s ∧ s ∈ sigs ∧
        (s = SIGINT ∨ s = SIGTSTP ∨ s = SIGCHLD)) := by
  refine ⟨rfl, by simp [signalHandlerRelay], ?_, ?_⟩
  · intro s hs
    exact List.mem_map_of_mem _ hs
  · intro m hm
    rcases List.mem_map.1 hm with ⟨s, hs, rfl⟩
    have h := hsub s hs
    simp [subscribedSignals] at h
    exact ⟨s, rfl, hs, by tauto⟩

/-- C5 witness: a delivered SIGINT is forwarded as `Signal SIGINT`. -/
theorem c5_witness :
    WorkerMsg.Signal SIGINT ∈ signalHandlerRelay [SIGINT, SIGCHLD] :=
  (c5_signal_relay_subscribed_only [SIGINT, SIGCHLD] (by decide)).2.2.1
    SIGINT (by decide)

/-! ## C10 — Ctrl-C at the prompt -/

/-- C10: on `ReadlineError::Interrupted` the orchestrator prints a hint and
continues the loop; the state (in particular `exit_code` and
`last_exit_code`) is unchanged and no message is sent to the worker. -/
theorem c10_interrupted_prints_hint_and_continues
    (st : State) (reply : ShellMsg) :
    process st .interrupted reply =
      (st, [.eprint "ZeroSh: you can exit with `Ctrl+d`"], .continueLoop) := rfl

/-! ## C6 — Continue replies and the prompt glyph -/

/-- C6: after a `Continue { code }` reply to a sent command,
`last_exit_code` equals `code` and the next prompt shows the success glyph
if and only if `code == 0` (and the failure glyph if and only if
`code ≠ 0`). -/
theorem c6_continue_sets_last_exit_code_and_prompt
    (st : State) (line : String) (code : I32) (hne : rustTrim line ≠ "") :
    (process st (.ok line) (.Continue code)).1.last_exit_code = code ∧
    (process st (.ok line) (.Continue code)).2.2 = .continueLoop ∧
    ((process st (.ok line) (.Continue code)).1.prompt = successPrompt ↔
      code = 0) ∧
    ((process st (.ok line) (.Continue code)).1.prompt = failurePrompt ↔
      code ≠ 0) := by
  rcases eq_or_ne code 0 with h | h <;>
    simp [process, hne, State.prompt, successPrompt, failurePrompt, h] <;>
    decide

/-- C6 witness: input `false` answered with `Continue { 1 }` leaves
`last_exit_code = 1` and the failure prompt. -/
theorem c6_witness :
    (process ⟨0, 0⟩ (.ok "false") (.Continue 1)).1.last_exit_code = 1 ∧
    (process ⟨0, 0⟩ (.ok "false") (.Continue 1)).2.2 = .continueLoop ∧
    ((process ⟨0, 0⟩ (.ok "false") (.Continue 1)).1.prompt = successPrompt ↔
      (1 : I32) = 0) ∧
    ((process ⟨0, 0⟩ (.ok "false") (.Continue 1)).1.prompt = failurePrompt ↔
      (1 : I32) ≠ 0) :=
  c6_continue_sets_last_exit_code_and_prompt ⟨0, 0⟩ "false" 1 (by decide)

/-! ## C7 — only trimmed, non-empty commands are sent -/

/-- C7: every `Cmd` message `process` sends carries a trimmed, non-empty
line; an input line that is empty after trimming sends nothing, adds no
history entry, and leaves the state unchanged. -/
theorem c7_sent_commands_trimmed_nonempty
    (st : State) (input : ReadlineResult) (reply : ShellMsg) :
    (∀ msg, Effect.sendWorker msg ∈ (process st input reply).2.1 →
      ∃ s, msg = WorkerMsg.Cmd s ∧ rustTrim s = s ∧ s ≠ "") ∧
    (∀ line, rustTrim line = "" →
      process st (.ok line) reply = (st, [], .continueLoop)) := by
  constructor
  · intro msg hmem
    match input with
    | .interrupted => simp [process] at hmem
    | .err m => simp [process] at hmem
    | .eof =>
      cases reply <;> simp [process] at hmem <;>
        exact ⟨"exit", by rw [hmem], by decide, by decide⟩
    | .ok line =>
      by_cases hne : rustTrim line = ""
      · simp [process, hne] at hmem
      · cases reply <;>
          simp [process, hne] at hmem <;>
          exact ⟨rustTrim line, by rw [hmem], rustTrim_idem line, hne⟩
  · intro line hline
    simp [process, hline]

/-! ## C1 — one reply per Command, none per Signal -/

theorem builtinExit_one_reply (w : Worker) (argv : List String) :
    ((builtinExit w argv).2.1).length = 1 := by
  unfold builtinExit
  split <;> rfl

theorem builtinCd_one_reply (o : WorkerOracle) (w : Worker)
    (argv : List String) : ((builtinCd o w argv).2.1).length = 1 := by
  simp only [builtinCd]
  split <;> rfl

theorem builtinFg_one_reply (o : WorkerOracle) (w : Worker)
    (argv : List String) : ((builtinFg o w argv).2.1).length = 1 := by
  unfold builtinFg
  repeat' split
  all_goals rfl

theorem builtinBg_one_reply (w : Worker) (argv : List String) :
    ((builtinBg w argv).2.1).length = 1 := by
  unfold builtinBg
  repeat' split
  all_goals rfl

theorem runExternal_one_reply (o : WorkerOracle) (w : Worker) (line : String)
    (p : Pipeline) : ((runExternal o w line p).2.1).length = 1 := by
  rcases hs : o.spawn line with _ | pgid
  · simp [runExternal, hs]
  · by_cases hbg : p.is_background = true
    · simp [runExternal, hs, hbg]
    · rcases hf : o.runFg (allocJobId w.jobs) with code | _ <;>
        simp [runExternal, hs, hbg, hf]

theorem runBuiltin_one_reply (o : WorkerOracle) (w : Worker)
    (argv : List String) : ((runBuiltin o w argv).2.1).length = 1 := by
  simp only [runBuiltin]
  repeat' split
  · exact builtinExit_one_reply _ _
  · exact builtinCd_one_reply _ _ _
  · rfl
  · exact builtinFg_one_reply _ _ _
  · exact builtinBg_one_reply _ _
  · rfl

theorem handleCmd_one_reply (o : WorkerOracle) (w : Worker) (line : String) :
    ((handleCmd o w line).2.1).length = 1 := by
  rcases hp : parsePipeline line with _ | p
  · simp [handleCmd, hp]
  · by_cases hb : isBuiltinPipeline p = true
    · simp [handleCmd, hp, hb, runBuiltin_one_reply]
    · simp [handleCmd, hp, hb, runExternal_one_reply]

theorem handleSignal_no_reply (o : WorkerOracle) (w : Worker) (s : I32) :
    (handleSignal o w s).2.1 = [] := by
  unfold handleSignal
  repeat' split
  all_goals rfl

/-- C1: for every Command message the worker sends exactly one reply —
necessarily a `Continue` or a `Quit`, the only constructors of `ShellMsg` —
and for every Signal message it sends none. -/
theorem c1_exactly_one_reply_per_command (o : WorkerOracle) (w : Worker) :
    (∀ line, ((workerStep o w (.Cmd line)).2.1).length = 1) ∧
    (∀ s, (workerStep o w (.Signal s)).2.1 = []) :=
  ⟨fun line => handleCmd_one_reply o w line,
   fun s => handleSignal_no_reply o w s⟩

/-! ## C3 — SIGINT/SIGTSTP with no foreground job are swallowed -/

/-- C3: a `Signal` message carrying SIGINT or SIGTSTP processed while
`fg = None` leaves the worker state unchanged, sends no reply and performs
no effect at all — in particular the step returns normally, so the worker
loop keeps running. -/
theorem c3_signal_swallowed_without_fg (o : WorkerOracle) (w : Worker)
    (s : I32) (hs : s = SIGINT ∨ s = SIGTSTP) (hfg : w.fg = none) :
    workerStep o w (.Signal s) = (w, [], []) := by
  rcases hs with rfl | rfl <;>
    simp [workerStep, handleSignal, SIGINT, SIGTSTP, SIGCHLD, hfg]

/-- C3 witness: SIGINT delivered to the fresh worker (no foreground job)
is swallowed. -/
theorem c3_witness :
    workerStep oracle0 Worker.new (.Signal SIGINT) = (Worker.new, [], []) :=
  c3_signal_swallowed_without_fg oracle0 Worker.new SIGINT (Or.inl rfl) rfl

/-! ## C8 — the `exit` builtin -/

/-- C8: processing `exit [code]` with an outstanding (Running or Stopped)
job refuses with a warning and replies Continue, unless the previous `exit`
was already refused (second consecutive invocation), in which case it
replies Quit; with no outstanding job it replies Quit with the given code
(`argv[1]`, defaulting to 0). -/
theorem c8_exit_refuses_with_outstanding_jobs (o : WorkerOracle)
    (w : Worker) (line : String) (argv : List String)
    (hp : parsePipeline line = some ⟨[argv], false⟩)
    (hhd : argv.head? = some "exit") :
    (w.hasOutstanding = true → w.exit_refused = false →
      (handleCmd o w line).2.1 = [.Continue 1] ∧
      (handleCmd o w line).1.exit_refused = true ∧
      (handleCmd o w line).2.2 =
        [.eprint "zerosh: there are outstanding jobs; exit again to force quit"]) ∧
    (w.hasOutstanding = true → w.exit_refused = true →
      (handleCmd o w line).2.1 =
        [.Quit (((argv.get? 1).bind parseInt).getD 0)]) ∧
    (w.hasOutstanding = false →
      (handleCmd o w line).2.1 =
        [.Quit (((argv.get? 1).bind parseInt).getD 0)]) := by
  have hb : isBuiltinPipeline ⟨[argv], false⟩ = true := by
    simp [isBuiltinPipeline, hhd, builtinNames]
  refine ⟨fun hout href => ?_, fun hout href => ?_, fun hout => ?_⟩
  · simp [handleCmd, hp, hb, runBuiltin, hhd, builtinExit, hout, href]
  · simp [handleCmd, hp, hb, runBuiltin, hhd, builtinExit, hout, href]
  · simp [handleCmd, hp, hb, runBuiltin, hhd, builtinExit, hout]

/-- C8 witness: a first `exit` while one job is Stopped is refused with a
warning, replying `Continue 1` and setting the refusal flag. -/
theorem c8_witness :
    (handleCmd oracle0 workerWithStoppedJob "exit").2.1 =
      [ShellMsg.Continue 1] ∧
    (handleCmd oracle0 workerWithStoppedJob "exit").1.exit_refused = true ∧
    (handleCmd oracle0 workerWithStoppedJob "exit").2.2 =
      [Effect.eprint "zerosh: there are outstanding jobs; exit again to force quit"] :=
  (c8_exit_refuses_with_outstanding_jobs oracle0 workerWithStoppedJob "exit"
    ["exit"] (by decide) (by decide)).1 (by decide) rfl

/-! ## C2 — end-of-input handling -/

/-- C2 (code-bug evidence): at end of input the orchestrator sends the
plain command line `exit` (`process`, `src/lib.rs`) — `WorkerMsg` has no
way to mark it as forced — so with an outstanding Stopped job and no
previous refusal the spec's `exit` policy (§4.3) answers `Continue 1`
rather than `Quit`, and `process` then reaches `panic!("failed to exit")`
instead of terminating the loop with a Quit-carried code. -/
theorem c2_eof_exit_not_forced :
    (process ⟨0, 0⟩ .eof (ShellMsg.Continue 1)).2.1 =
      [Effect.sendWorker (.Cmd "exit")] ∧
    (workerStep oracle0 workerWithStoppedJob (.Cmd "exit")).2.1 =
      [ShellMsg.Continue 1] ∧
    (process ⟨0, 0⟩ .eof (ShellMsg.Continue 1)).2.2 =
      ProcessOutcome.panicked :=
  ⟨rfl, by decide, rfl⟩

/-! ## C9 — SIGTTOU ignored once, at startup -/

theorem process_no_sigaction (st : State) (input : ReadlineResult)
    (reply : ShellMsg) :
    ((process st input reply).2.1).all (fun e => !isSigactionEffect e) = true := by
  match input with
  | .interrupted => rfl
  | .err m => rfl
  | .eof => cases reply <;> rfl
  | .ok line =>
    by_cases hne : rustTrim line = ""
    · simp [process, hne]
    · cases reply <;> simp [process, hne, isSigactionEffect]

theorem shellLoop_no_sigaction (inputs : List (ReadlineResult × ShellMsg)) :
    ∀ st : State,
      ((shellLoop st inputs).2).all (fun e => !isSigactionEffect e) = true := by
  induction inputs with
  | nil => intro st; rfl
  | cons hd tl ih =>
    intro st
    obtain ⟨input, reply⟩ := hd
    rcases hp : process st input reply with ⟨st2, effs, oc⟩
    have heffs : effs.all (fun e => !isSigactionEffect e) = true := by
      have h := process_no_sigaction st input reply
      rw [hp] at h
      exact h
    cases oc with
    | continueLoop =>
      rcases hrec : shellLoop st2 tl with ⟨st3, effs2⟩
      have h2 := ih st2
      rw [hrec] at h2
      simp [shellLoop, hp, hrec, List.all_append, heffs, h2]
    | breakLoop => simp [shellLoop, hp, heffs]
    | panicked => simp [shellLoop, hp, heffs]

theorem builtinExit_no_sigaction (w : Worker) (argv : List String) :
    ((builtinExit w argv).2.2).all (fun e => !isSigactionEffect e) = true := by
  unfold builtinExit
  split <;> rfl

theorem builtinCd_no_sigaction (o : WorkerOracle) (w : Worker)
    (argv : List String) :
    ((builtinCd o w argv).2.2).all (fun e => !isSigactionEffect e) = true := by
  simp only [builtinCd]
  split <;> rfl

theorem builtinFg_no_sigaction (o : WorkerOracle) (w : Worker)
    (argv : List String) :
    ((builtinFg o w argv).2.2).all (fun e => !isSigactionEffect e) = true := by
  simp only [builtinFg]
  repeat' split
  all_goals rfl

theorem builtinBg_no_sigaction (w : Worker) (argv : List String) :
    ((builtinBg w argv).2.2).all (fun e => !isSigactionEffect e) = true := by
  simp only [builtinBg]
  repeat' split
  all_goals rfl

theorem runExternal_no_sigaction (o : WorkerOracle) (w : Worker)
    (line : String) (p : Pipeline) :
    ((runExternal o w line p).2.2).all (fun e => !isSigactionEffect e) = true := by
  rcases hs : o.spawn line with _ | pgid
  · simp [runExternal, hs, isSigactionEffect]
  · by_cases hbg : p.is_background = true
    · simp [runExternal, hs, hbg]
    · rcases hf : o.runFg (allocJobId w.jobs) with code | _ <;>
        simp [runExternal, hs, hbg, hf, isSigactionEffect]

theorem runBuiltin_no_sigaction (o : WorkerOracle) (w : Worker)
    (argv : List String) :
    ((runBuiltin o w argv).2.2).all (fun e => !isSigactionEffect e) = true := by
  simp only [runBuiltin]
  repeat' split
  · exact builtinExit_no_sigaction _ _
  · exact builtinCd_no_sigaction _ _ _
  · rfl
  · exact builtinFg_no_sigaction _ _ _
  · exact builtinBg_no_sigaction _ _
  · rfl

theorem handleCmd_no_sigaction (o : WorkerOracle) (w : Worker)
    (line : String) :
    ((handleCmd o w line).2.2).all (fun e => !isSigactionEffect e) = true := by
  rcases hp : parsePipeline line with _ | p
  · simp [handleCmd, hp, isSigactionEffect]
  · by_cases hb : isBuiltinPipeline p = true
    · simp [handleCmd, hp, hb, runBuiltin_no_sigaction]
    · simp [handleCmd, hp, hb, runExternal_no_sigaction]

theorem applyReap_no_sigaction (jobs : List Job) (ev : ReapEvent) :
    ((applyReap jobs ev).2).all (fun e => !isSigactionEffect e) = true := by
  simp only [applyReap]
  repeat' split
  all_goals rfl

theorem reapAll_no_sigaction (evs : List ReapEvent) :
    ∀ (jobs : List Job) (effs : List Effect),
      effs.all (fun e => !isSigactionEffect e) = true →
      ((reapAll evs jobs effs).2).all (fun e => !isSigactionEffect e) = true := by
  induction evs with
  | nil => intro jobs effs h; simpa [reapAll] using h
  | cons ev tl ih =>
    intro jobs effs h
    rcases ha : applyReap jobs ev with ⟨jobs2, effs2⟩
    have h2 := applyReap_no_sigaction jobs ev
    rw [ha] at h2
    simp only [reapAll, ha]
    exact ih jobs2 (effs ++ effs2) (by simp [List.all_append, h, h2])

theorem handleSignal_no_sigaction (o : WorkerOracle) (w : Worker) (s : I32) :
    ((handleSignal o w s).2.2).all (fun e => !isSigactionEffect e) = true := by
  unfold handleSignal
  split
  · rcases hf : reapAll o.reap w.jobs [] with ⟨jobs, effs⟩
    have h := reapAll_no_sigaction o.reap w.jobs [] rfl
    rw [hf] at h
    simpa [hf] using h
  · split
    · split <;> rfl
    · rfl

theorem workerStep_no_sigaction (o : WorkerOracle) (w : Worker)
    (m : WorkerMsg) :
    ((workerStep o w m).2.2).all (fun e => !isSigactionEffect e) = true := by
  cases m with
  | Cmd line => exact handleCmd_no_sigaction o w line
  | Signal s => exact handleSignal_no_sigaction o w s

/-- C9: `run_shell` ignores SIGTTOU as its very first action, before the
signal-handler and worker threads are spawned, and no later effect of the
shell — neither of the orchestrator loop nor of any worker step — is a
signal-disposition change. -/
theorem c9_sigttou_ignored_once_at_startup
    (inputs : List (ReadlineResult × ShellMsg)) :
    ((run_shell inputs).2).take 3 =
      [Effect.sigaction SIGTTOU .SigIgn, .spawnSignalHandlerThread,
        .spawnWorkerThread] ∧
    (((run_shell inputs).2).drop 1).all (fun e => !isSigactionEffect e) = true ∧
    (∀ (o : WorkerOracle) (w : Worker) (m : WorkerMsg),
      ((workerStep o w m).2.2).all (fun e => !isSigactionEffect e) = true) := by
  refine ⟨?_, ?_, fun o w m => workerStep_no_sigaction o w m⟩ <;>
    rcases h : shellLoop ⟨0, 0⟩ inputs with ⟨st, effs⟩
  · simp [run_shell, runShellStartupEffects, h]
  · have hl := shellLoop_no_sigaction inputs ⟨0, 0⟩
    rw [h] at hl
    simp only [run_shell, runShellStartupEffects, h, List.cons_append,
      List.nil_append, List.drop_succ_cons, List.drop_zero, List.all_cons,
      Bool.and_eq_true]
    exact ⟨rfl, rfl, hl⟩

/-- C7 witness: a line of blanks is dropped — no send, no history entry,
state unchanged. -/
theorem c7_witness :
    process ⟨0, 0⟩ (.ok "   ") (.Continue 0) = (⟨0, 0⟩, [], .continueLoop) :=
  (c7_sent_commands_trimmed_nonempty ⟨0, 0⟩ (.ok "   ") (.Continue 0)).2
    "   " (by decide)
